import Mathlib

/-!
Shallow embedding of the Expense Tracker backend (Express + Prisma) and
proofs about its role-based access control, expense status workflow and
audit-trail behavior.

Source files embedded here:
  src/backend/src/routes/expenses.js   (expense list/create/update/status/export/get,
                                        auth login/logout, server wiring)
  src/unnamed/part_005                 (users routes, analytics routes)
  src/unnamed/part_006                 (audit routes)
  src/backend/src/middleware/validation.js

The auth middleware (authenticateToken / requireAdmin / requireEmployee from
src/backend/src/middleware/auth.js) is referenced by the routes but its file is
not part of the sources; where its behavior matters it is modelled from the
spec, with a doc comment saying so.
-/

namespace ExpenseApp

/-- Role enumeration of a user, from the data model (role TEXT, EMPLOYEE or ADMIN). -/
inductive Role where
  | EMPLOYEE
  | ADMIN
deriving DecidableEq, Repr

/-- Expense category enumeration, from validation.js expenseSchema. -/
inductive Category where
  | TRAVEL
  | FOOD
  | EQUIPMENT
  | OFFICE_SUPPLIES
  | SOFTWARE
  | TRAINING
  | OTHER
deriving DecidableEq, Repr

/-- Expense status enumeration, from the data model (PENDING, APPROVED, REJECTED). -/
inductive ExpenseStatus where
  | PENDING
  | APPROVED
  | REJECTED
deriving DecidableEq, Repr

/-- A stored user row. The password field holds the bcrypt hash, never plaintext. -/
structure User where
  id : Nat
  email : String
  password : String
  name : String
  role : Role
deriving DecidableEq, Repr

/-- A stored expense row. Dates and timestamps are modelled as Nat instants;
the monetary amount is a rational (DECIMAL in the schema). -/
structure Expense where
  id : Nat
  amount : Rat
  category : Category
  date : Nat
  notes : Option String
  status : ExpenseStatus
  rejectionReason : Option String
  receiptUrl : Option String
  userId : Nat
  createdAt : Nat
deriving DecidableEq, Repr

/-- A stored audit log row (action, description, timestamp, acting user). -/
structure AuditEntry where
  action : String
  description : String
  timestamp : Nat
  userId : Nat
deriving DecidableEq, Repr

/-- The database state: users, expenses and the append-only audit log,
plus a fresh-id counter (Prisma generates unique ids) and a clock. -/
structure DB where
  users : List User
  expenses : List Expense
  audit : List AuditEntry
  seq : Nat
  now : Nat
deriving DecidableEq, Repr

/-- The request identity attached by the authenticateToken middleware
(req.user: id, email, role). -/
structure AuthUser where
  id : Nat
  email : String
  role : Role
deriving DecidableEq, Repr

/-- Query filters accepted by GET /api/expenses, from validation.js
expenseFilterSchema; absent query parameters are none. -/
structure ExpenseFilter where
  category : Option Category
  status : Option ExpenseStatus
  startDate : Option Nat
  endDate : Option Nat
  page : Option Nat
  limit : Option Nat
deriving DecidableEq, Repr

/-- The client-supplied part of the where clause built by the expense list and
export handlers: category, status and date range (expenses.js lines 69 to 76). -/
def matchesFilters (f : ExpenseFilter) (e : Expense) : Bool :=
  (match f.category with
   | some c => e.category == c
   | none => true) &&
  (match f.status with
   | some s => e.status == s
   | none => true) &&
  (match f.startDate with
   | some d => Nat.ble d e.date
   | none => true) &&
  (match f.endDate with
   | some d => Nat.ble e.date d
   | none => true)

/-- The full where clause of GET /api/expenses: the role-based restriction
(where.userId = req.user.id for an EMPLOYEE, expenses.js lines 64 to 67)
conjoined with the client filters. -/
def matchesWhere (caller : AuthUser) (f : ExpenseFilter) (e : Expense) : Bool :=
  (if caller.role = Role.EMPLOYEE then e.userId == caller.id else true) &&
  matchesFilters f e

/-- Ordering used by the expense list handler: orderBy createdAt desc. -/
def createdDesc (a b : Expense) : Prop := b.createdAt ≤ a.createdAt

instance : DecidableRel createdDesc := fun a b => Nat.decLe b.createdAt a.createdAt

/-- GET /api/expenses (expenses.js lines 56 to 116): filter by the where clause,
order by createdAt descending, then paginate with skip = (page - 1) * limit and
take = limit, with defaults page = 1 and limit = 20. Read-only. -/
def listExpenses (caller : AuthUser) (f : ExpenseFilter) (db : DB) : List Expense :=
  let page := f.page.getD 1
  let lim := f.limit.getD 20
  (((db.expenses.filter (matchesWhere caller f)).insertionSort createdDesc).drop
      ((page - 1) * lim)).take lim

/-- Request body of POST and PUT /api/expenses, after the multipart form has been
read: parsed amount (none when parseFloat gave NaN), parsed category and date
(none when the string was not a member of the enum or not a valid datetime),
optional notes. -/
structure ExpenseInput where
  amount : Option Rat
  category : Option Category
  date : Option Nat
  notes : Option String
deriving DecidableEq, Repr

/-- The amount checks of expenseSchema in validation.js (also repeated inline in
the update handler): a number, positive, at least 0.01 and at most 100000. -/
def validAmount (a : Option Rat) : Bool :=
  match a with
  | none => false
  | some q => decide (0 < q) && decide (mkRat 1 100 ≤ q) && decide (q ≤ 100000)

/-- The expenseSchema validation: amount in range, category a member of the
enumeration, date a valid datetime string; notes optional. -/
def validateExpenseInput (i : ExpenseInput) : Bool :=
  validAmount i.amount && i.category.isSome && i.date.isSome

/-- Modelled from the spec: bcryptjs password hashing is an external library;
the hash is modelled as an injective tagging of the plaintext (section 4.1 of
the spec only requires a salted irreversible hash compared on login). -/
def bcryptHash (p : String) : String := "bh" ++ p

/-- Modelled from the spec: bcrypt.compare(password, storedHash). -/
def bcryptCompare (p h : String) : Bool := bcryptHash p == h

/-- Modelled from the spec: the zod email format check, abstracted to the string
containing an at sign (the exact regex is irrelevant to every claim). -/
def isEmailLike (s : String) : Bool := s.toList.contains (Char.ofNat 64)

/-- The shared tail of every mutating handler: try to append the audit entry and
answer with the success code; when the audit write throws, the catch block
answers 500 while the primary mutation already performed on db stays committed
(there is no transaction around the pair of writes). -/
def withAudit (auditOk : Bool) (entry : AuditEntry) (okCode : Nat) (db : DB) :
    Nat × DB :=
  if auditOk then (okCode, { db with audit := db.audit ++ [entry] }) else (500, db)

/-- The expense row inserted by POST /api/expenses (expenses.js lines 125 to 143):
status defaults to PENDING, rejectionReason to null, receiptUrl to the uploaded
file path when a file was attached, userId to the caller. The getD defaults are
never reached because the handler runs only after validateExpenseInput. -/
def newExpenseOf (caller : AuthUser) (input : ExpenseInput) (file : Option String)
    (db : DB) : Expense :=
  { id := db.seq
    amount := input.amount.getD 0
    category := input.category.getD Category.OTHER
    date := input.date.getD 0
    notes := input.notes
    status := ExpenseStatus.PENDING
    rejectionReason := none
    receiptUrl := file.map (fun f => "/uploads/" ++ f)
    userId := caller.id
    createdAt := db.now }

/-- POST /api/expenses (expenses.js lines 119 to 165): after validateExpense,
insert the new PENDING expense owned by the caller, then write one
EXPENSE_CREATED audit entry attributed to the caller. -/
def createExpense (caller : AuthUser) (input : ExpenseInput) (file : Option String)
    (auditOk : Bool) (db : DB) : Nat × DB :=
  if validateExpenseInput input then
    withAudit auditOk
      { action := "EXPENSE_CREATED"
        description := "Expense created"
        timestamp := db.now
        userId := caller.id } 201
      { db with
        expenses := db.expenses ++ [newExpenseOf caller input file db]
        seq := db.seq + 1
        now := db.now + 1 }
  else (400, db)

/-- The content rewrite performed by PUT /api/expenses/:id (expenses.js lines
232 to 244) on the row being edited: new amount, category, date, notes (empty
string when absent), status reset to PENDING for re-approval, receiptUrl
replaced only when a new file was uploaded; rejectionReason is not touched.
The id is the primary key, so the mapped row is the row found by findUnique. -/
def updatedContent (input : ExpenseInput) (file : Option String) (x : Expense) :
    Expense :=
  { x with
    amount := input.amount.getD 0
    category := input.category.getD Category.OTHER
    date := input.date.getD 0
    notes := some (input.notes.getD "")
    status := ExpenseStatus.PENDING
    receiptUrl :=
      match file with
      | some f => some ("/uploads/" ++ f)
      | none => x.receiptUrl }

/-- PUT /api/expenses/:id (expenses.js lines 168 to 281): 404 when the expense
does not exist, 403 when an EMPLOYEE caller is not the owner, 400 when the body
fails the inline zod validation, otherwise rewrite the content with status reset
to PENDING and write one EXPENSE_UPDATED audit entry attributed to the caller. -/
def updateExpense (caller : AuthUser) (i : Nat) (input : ExpenseInput)
    (file : Option String) (auditOk : Bool) (db : DB) : Nat × DB :=
  match db.expenses.find? (fun e => e.id == i) with
  | none => (404, db)
  | some ex =>
    if caller.role = Role.EMPLOYEE ∧ ex.userId ≠ caller.id then (403, db)
    else if validateExpenseInput input then
      withAudit auditOk
        { action := "EXPENSE_UPDATED"
          description := "Expense updated"
          timestamp := db.now
          userId := caller.id } 200
        { db with
          expenses :=
            db.expenses.map (fun x => if x.id == i then updatedContent input file x else x) }
    else (400, db)

/-- The JavaScript spread pattern of the status handler,
data: { status, ...(reason && { rejectionReason: reason }) }: the
rejectionReason field is written only when reason is truthy (present and
nonempty), whatever the requested status is; otherwise the stored value stays. -/
def reasonWrite (reason : Option String) (old : Option String) : Option String :=
  match reason with
  | some r => if r = "" then old else some r
  | none => old

/-- PUT /api/expenses/:id/status (expenses.js lines 284 to 354): the leading
admin gate stands for the requireAdmin middleware, modelled from the spec
(section 4.2: a role guard answering Forbidden 403; auth.js is not among the
sources); then 400 unless the requested status is APPROVED or REJECTED, 404
when the expense is absent, otherwise overwrite the status (the current status
is never inspected) and conditionally the rejectionReason, and write one
EXPENSE_STATUS_UPDATED audit entry attributed to the caller. -/
def updateExpenseStatus (caller : AuthUser) (i : Nat) (s : ExpenseStatus)
    (reason : Option String) (auditOk : Bool) (db : DB) : Nat × DB :=
  if caller.role = Role.ADMIN then
    if s = ExpenseStatus.APPROVED ∨ s = ExpenseStatus.REJECTED then
      match db.expenses.find? (fun e => e.id == i) with
      | none => (404, db)
      | some _ =>
        withAudit auditOk
          { action := "EXPENSE_STATUS_UPDATED"
            description := "Expense status changed"
            timestamp := db.now
            userId := caller.id } 200
          { db with
            expenses :=
              db.expenses.map (fun x =>
                if x.id == i then
                  { x with status := s, rejectionReason := reasonWrite reason x.rejectionReason }
                else x) }
    else (400, db)
  else (403, db)

/-- GET /api/expenses/export (expenses.js lines 357 to 437): admin only; the
where clause carries only the client filters with no role restriction; the CSV
response is sent with res.send before the audit write is attempted, so even a
failing EXPENSE_EXPORT audit write leaves the 200 CSV response already sent. -/
def exportExpenses (caller : AuthUser) (f : ExpenseFilter) (auditOk : Bool)
    (db : DB) : Nat × DB :=
  if caller.role = Role.ADMIN then
    if auditOk then
      (200, { db with audit := db.audit ++
        [{ action := "EXPENSE_EXPORT"
           description := "Exported " ++
             toString (db.expenses.filter (matchesFilters f)).length ++
             " expenses to CSV"
           timestamp := db.now
           userId := caller.id }] })
    else (200, db)
  else (403, db)

/-- GET /api/expenses/:id (expenses.js lines 440 to 480): findUnique first, so a
missing id answers 404 for every caller; only then the ownership check, so an
existing expense of another user answers 403 to an EMPLOYEE. Read-only. -/
def getExpense (caller : AuthUser) (i : Nat) (db : DB) : Nat × DB :=
  match db.expenses.find? (fun e => e.id == i) with
  | none => (404, db)
  | some e =>
    if caller.role = Role.EMPLOYEE ∧ e.userId ≠ caller.id then (403, db)
    else (200, db)

/-- The result of POST /api/auth/login: on success the user payload (without the
password hash) and a token; on failure the http code with the error and message
strings of the json body. -/
inductive LoginReply where
  | ok (userId : Nat) (email : String) (role : Role) (token : String)
  | err (code : Nat) (error : String) (msg : String)
deriving DecidableEq, Repr

/-- Modelled from the spec: jwt.sign of the payload userId, email, role with the
server secret (an external library; only used as an opaque success artifact). -/
def signToken (id : Nat) (email : String) : String :=
  "jwt" ++ toString id ++ email

/-- The loginSchema validation of validation.js: email format and a nonempty
password. -/
def validateLogin (email pwd : String) : Bool :=
  isEmailLike email && decide (1 ≤ pwd.length)

/-- The http code of a login reply. -/
def loginCode : LoginReply → Nat
  | LoginReply.ok _ _ _ _ => 200
  | LoginReply.err c _ _ => c

/-- POST /api/auth/login (expenses.js lines 493 to 560): after validateLogin,
look the user up by email; a missing user and a failed bcrypt comparison answer
the identical 401 body; on success the USER_LOGIN audit entry is written before
the token response (its failure hits the catch block and answers 500). -/
def login (email pwd : String) (auditOk : Bool) (db : DB) : LoginReply × DB :=
  if validateLogin email pwd then
    match db.users.find? (fun u => u.email == email) with
    | none => (LoginReply.err 401 "Invalid credentials" "Email or password is incorrect", db)
    | some u =>
      if bcryptCompare pwd u.password then
        if auditOk then
          (LoginReply.ok u.id u.email u.role (signToken u.id u.email),
            { db with audit := db.audit ++
                [{ action := "USER_LOGIN"
                   description := "User logged in"
                   timestamp := db.now
                   userId := u.id }] })
        else (LoginReply.err 500 "Login failed" "An error occurred during login", db)
      else (LoginReply.err 401 "Invalid credentials" "Email or password is incorrect", db)
  else (LoginReply.err 400 "Validation error" "Invalid request data", db)

/-- POST /api/auth/logout (expenses.js lines 563 to 584): the only effect is one
USER_LOGOUT audit entry attributed to the caller. -/
def logout (caller : AuthUser) (auditOk : Bool) (db : DB) : Nat × DB :=
  withAudit auditOk
    { action := "USER_LOGOUT"
      description := "User logged out"
      timestamp := db.now
      userId := caller.id } 200 db

/-- Request body of POST /api/users; role defaults to EMPLOYEE (userSchema). -/
structure UserInput where
  email : String
  password : String
  name : String
  role : Option Role
deriving DecidableEq, Repr

/-- The name checks of userSchema: between 1 and 100 characters. -/
def validName (n : String) : Bool :=
  decide (1 ≤ n.length) && decide (n.length ≤ 100)

/-- The userSchema validation of validation.js: email format, password at least
6 characters, name between 1 and 100 characters. -/
def validateUserInput (i : UserInput) : Bool :=
  isEmailLike i.email && decide (6 ≤ i.password.length) && validName i.name

/-- POST /api/users (part_005 lines 68 to 125): admin guard, validateUser, 400
on a duplicate email, then insert the user with the bcrypt hash of the password
and write one USER_CREATED audit entry attributed to the caller. -/
def createUser (caller : AuthUser) (input : UserInput) (auditOk : Bool) (db : DB) :
    Nat × DB :=
  if caller.role = Role.ADMIN then
    if validateUserInput input then
      match db.users.find? (fun u => u.email == input.email) with
      | some _ => (400, db)
      | none =>
        withAudit auditOk
          { action := "USER_CREATED"
            description := "User created by admin"
            timestamp := db.now
            userId := caller.id } 201
          { db with
            users := db.users ++
              [{ id := db.seq
                 email := input.email
                 password := bcryptHash input.password
                 name := input.name
                 role := input.role.getD Role.EMPLOYEE }]
            seq := db.seq + 1
            now := db.now + 1 }
    else (400, db)
  else (403, db)

/-- Request body of PUT /api/users/:id; every field optional (userUpdateSchema).
An invalid role string is rejected by the enum validation, so only a valid or
absent role reaches the handler. -/
structure UserUpdateInput where
  email : Option String
  name : Option String
  password : Option String
  role : Option Role
deriving DecidableEq, Repr

/-- The userUpdateSchema validation of validation.js: each supplied field must
pass the same check as on creation; absent fields pass. -/
def validateUserUpdateInput (i : UserUpdateInput) : Bool :=
  (match i.email with
   | some e => isEmailLike e
   | none => true) &&
  (match i.password with
   | some p => decide (6 ≤ p.length)
   | none => true) &&
  (match i.name with
   | some n => validName n
   | none => true)

/-- The JavaScript fallback pattern field || existingUser.field of the user
update handler: an absent or empty supplied value keeps the stored value. -/
def jsOrStr (v : Option String) (d : String) : String :=
  match v with
  | none => d
  | some s => if s = "" then d else s

/-- The row rewrite of PUT /api/users/:id (part_005 lines 159 to 183): email,
name and role fall back to the stored values when absent, the password is
rehashed only when one is supplied (truthy). The id is the primary key, so the
mapped row is the row found by findUnique. -/
def updatedUser (input : UserUpdateInput) (u : User) : User :=
  { u with
    email := jsOrStr input.email u.email
    name := jsOrStr input.name u.name
    role := input.role.getD u.role
    password :=
      match input.password with
      | some p => if p = "" then u.password else bcryptHash p
      | none => u.password }

/-- Whether the supplied email is truthy and differs from the stored one
(the condition guarding the duplicate email lookup, part_005 line 146). -/
def emailChanged (input : UserUpdateInput) (ex : User) : Bool :=
  match input.email with
  | some e => !(e == "") && !(e == ex.email)
  | none => false

/-- PUT /api/users/:id (part_005 lines 128 to 205): admin guard,
validateUserUpdate, 404 when the user is absent, 400 when a changed email is
already taken, otherwise rewrite the row with the fallback semantics and write
one USER_UPDATED audit entry attributed to the caller. -/
def updateUser (caller : AuthUser) (i : Nat) (input : UserUpdateInput)
    (auditOk : Bool) (db : DB) : Nat × DB :=
  if caller.role = Role.ADMIN then
    if validateUserUpdateInput input then
      match db.users.find? (fun u => u.id == i) with
      | none => (404, db)
      | some ex =>
        if emailChanged input ex ∧
            (db.users.find? (fun u => u.email == jsOrStr input.email "")).isSome then
          (400, db)
        else
          withAudit auditOk
            { action := "USER_UPDATED"
              description := "User updated by admin"
              timestamp := db.now
              userId := caller.id } 200
            { db with
              users := db.users.map (fun u => if u.id == i then updatedUser input u else u) }
    else (400, db)
  else (403, db)

/-- DELETE /api/users/:id (part_005 lines 208 to 262): admin guard, 404 when the
user is absent, 400 when the target is the caller (self delete forbidden),
otherwise delete the row; per the schema (DOCUMENTATION.md, ON DELETE CASCADE)
the expenses and audit entries of the deleted user go with it; then one
USER_DELETED audit entry attributed to the caller. -/
def deleteUser (caller : AuthUser) (i : Nat) (auditOk : Bool) (db : DB) :
    Nat × DB :=
  if caller.role = Role.ADMIN then
    match db.users.find? (fun u => u.id == i) with
    | none => (404, db)
    | some u =>
      if u.id = caller.id then (400, db)
      else
        withAudit auditOk
          { action := "USER_DELETED"
            description := "User deleted by admin"
            timestamp := db.now
            userId := caller.id } 200
          { db with
            users := db.users.filter (fun x => !(x.id == i))
            expenses := db.expenses.filter (fun e => !(e.userId == i))
            audit := db.audit.filter (fun a => !(a.userId == i)) }
  else (403, db)

/-- GET /api/users and GET /api/users/:id and GET /api/logs (part_005 lines 11
to 65 and 265 to 301, part_006 lines 24 to 76): admin-gated reads; no handler
among them contains a write, so the state is returned untouched. -/
def adminRead (caller : AuthUser) (found : Bool) (db : DB) : Nat × DB :=
  if caller.role = Role.ADMIN then
    if found then (200, db) else (404, db)
  else (403, db)

/-- GET /api/logs/export (part_006 lines 177 to 251): admin only; the CSV is
sent with res.send before the AUDIT_EXPORT audit write, exactly as in the
expense export. -/
def exportAudit (caller : AuthUser) (auditOk : Bool) (db : DB) : Nat × DB :=
  if caller.role = Role.ADMIN then
    if auditOk then
      (200, { db with audit := db.audit ++
        [{ action := "AUDIT_EXPORT"
           description := "Exported " ++ toString db.audit.length ++ " audit logs to CSV"
           timestamp := db.now
           userId := caller.id }] })
    else (200, db)
  else (403, db)

/-- One API call of the modelled surface, with its authenticated caller and
request data. -/
inductive Op where
  | opListExpenses (caller : AuthUser) (f : ExpenseFilter)
  | opGetExpense (caller : AuthUser) (i : Nat)
  | opCreateExpense (caller : AuthUser) (input : ExpenseInput) (file : Option String)
  | opUpdateExpense (caller : AuthUser) (i : Nat) (input : ExpenseInput) (file : Option String)
  | opUpdateStatus (caller : AuthUser) (i : Nat) (s : ExpenseStatus) (reason : Option String)
  | opExportExpenses (caller : AuthUser) (f : ExpenseFilter)
  | opLogin (email pwd : String)
  | opLogout (caller : AuthUser)
  | opListUsers (caller : AuthUser)
  | opGetUser (caller : AuthUser) (i : Nat)
  | opCreateUser (caller : AuthUser) (input : UserInput)
  | opUpdateUser (caller : AuthUser) (i : Nat) (input : UserUpdateInput)
  | opDeleteUser (caller : AuthUser) (i : Nat)
  | opListAudit (caller : AuthUser)
  | opExportAudit (caller : AuthUser)
deriving Repr

/-- Dispatch of one API call to its handler. The auditOk flag tells whether the
audit write performed by a mutating handler succeeds or throws. The first
component is the http status code of the response. -/
def runOp (op : Op) (auditOk : Bool) (db : DB) : Nat × DB :=
  match op with
  | Op.opListExpenses _ _ => (200, db)
  | Op.opGetExpense c i => getExpense c i db
  | Op.opCreateExpense c input file => createExpense c input file auditOk db
  | Op.opUpdateExpense c i input file => updateExpense c i input file auditOk db
  | Op.opUpdateStatus c i s reason => updateExpenseStatus c i s reason auditOk db
  | Op.opExportExpenses c f => exportExpenses c f auditOk db
  | Op.opLogin email pwd =>
    let r := login email pwd auditOk db
    (loginCode r.1, r.2)
  | Op.opLogout c => logout c auditOk db
  | Op.opListUsers c => adminRead c true db
  | Op.opGetUser c i => adminRead c (db.users.find? (fun u => u.id == i)).isSome db
  | Op.opCreateUser c input => createUser c input auditOk db
  | Op.opUpdateUser c i input => updateUser c i input auditOk db
  | Op.opDeleteUser c i => deleteUser c i auditOk db
  | Op.opListAudit c => adminRead c true db
  | Op.opExportAudit c => exportAudit c auditOk db

/-- Whether the call is state-changing (contains an audit write on success);
the remaining calls are the read-only ones. -/
def isMutatingOp : Op → Bool
  | Op.opListExpenses _ _ => false
  | Op.opGetExpense _ _ => false
  | Op.opListUsers _ => false
  | Op.opGetUser _ _ => false
  | Op.opListAudit _ => false
  | _ => true

/-- The audit log right after the primary mutation and right before the audit
write of the call: unchanged except for the user delete, whose cascade removes
the audit entries of the deleted user. -/
def preAudit (op : Op) (db : DB) : List AuditEntry :=
  match op with
  | Op.opDeleteUser _ i => db.audit.filter (fun a => !(a.userId == i))
  | _ => db.audit

/-- The acting user an audit entry of the call is attributed to: the
authenticated caller, except for login where it is the user found by email. -/
def actorOf (op : Op) (db : DB) : Nat :=
  match op with
  | Op.opListExpenses c _ => c.id
  | Op.opGetExpense c _ => c.id
  | Op.opCreateExpense c _ _ => c.id
  | Op.opUpdateExpense c _ _ _ => c.id
  | Op.opUpdateStatus c _ _ _ => c.id
  | Op.opExportExpenses c _ => c.id
  | Op.opLogin email _ =>
    match db.users.find? (fun u => u.email == email) with
    | some u => u.id
    | none => 0
  | Op.opLogout c => c.id
  | Op.opListUsers c => c.id
  | Op.opGetUser c _ => c.id
  | Op.opCreateUser c _ => c.id
  | Op.opUpdateUser c _ _ => c.id
  | Op.opDeleteUser c _ => c.id
  | Op.opListAudit c => c.id
  | Op.opExportAudit c => c.id

/-- Whether the supplied credentials identify a stored user: the lookup by
email succeeds and the bcrypt comparison against the stored hash passes (the
two checks the login handler performs in sequence). -/
def validCredentials (db : DB) (email pwd : String) : Bool :=
  match db.users.find? (fun u => u.email == email) with
  | none => false
  | some u => bcryptCompare pwd u.password

/-! Concrete sample data used by the witnesses and counterexamples. -/

/-- Sample administrator row. -/
def adminUser : User :=
  { id := 1, email := "admin@example.com", password := bcryptHash "password123",
    name := "Admin User", role := Role.ADMIN }

/-- Sample employee row. -/
def empUser : User :=
  { id := 2, email := "employee@example.com", password := bcryptHash "password123",
    name := "John Employee", role := Role.EMPLOYEE }

/-- Request identity of the sample administrator. -/
def adminCtx : AuthUser := { id := 1, email := "admin@example.com", role := Role.ADMIN }

/-- Request identity of the sample employee. -/
def empCtx : AuthUser := { id := 2, email := "employee@example.com", role := Role.EMPLOYEE }

/-- Sample expense of the employee, already approved. -/
def expApproved : Expense :=
  { id := 10, amount := 150, category := Category.TRAVEL, date := 5, notes := none,
    status := ExpenseStatus.APPROVED, rejectionReason := none, receiptUrl := none,
    userId := 2, createdAt := 3 }

/-- Sample pending expense of the administrator. -/
def expPending : Expense :=
  { id := 11, amount := 20, category := Category.FOOD, date := 6, notes := none,
    status := ExpenseStatus.PENDING, rejectionReason := none, receiptUrl := none,
    userId := 1, createdAt := 4 }

/-- Sample database with the two users and the two expenses. -/
def sampleDb : DB :=
  { users := [adminUser, empUser], expenses := [expApproved, expPending],
    audit := [], seq := 100, now := 50 }

/-- The empty query string: no filters, default pagination. -/
def emptyFilter : ExpenseFilter :=
  { category := none, status := none, startDate := none, endDate := none,
    page := none, limit := none }

/-- A valid sample expense body. -/
def sampleInput : ExpenseInput :=
  { amount := some 5, category := some Category.FOOD, date := some 7, notes := none }

/-- The empty PUT /api/users/:id body: every optional field absent. -/
def emptyUserUpdate : UserUpdateInput :=
  { email := none, name := none, password := none, role := none }

/-! Helper lemmas shared by the claim proofs. -/

/-- Updating the rows selected by a key predicate with a key-preserving rewrite
commutes with findUnique by that key. -/
theorem find_map_ite_key {α : Type} (key : α → Nat) (l : List α) (i : Nat)
    (g : α → α) (hg : ∀ e, key (g e) = key e) :
    (l.map (fun x => if key x == i then g x else x)).find? (fun e => key e == i)
      = (l.find? (fun e => key e == i)).map g := by
  induction l with
  | nil => rfl
  | cons x xs ih =>
    by_cases h : key x = i
    · have hx : (key x == i) = true := by simp [h]
      have hgx : (key (g x) == i) = true := by simp [hg x, h]
      have hfx : (if (key x == i) = true then g x else x) = g x := by simp [hx]
      rw [List.map_cons, hfx, List.find?_cons_of_pos _ (by exact hgx),
        List.find?_cons_of_pos _ (by exact hx)]
      rfl
    · have hx : (key x == i) = false := by simp [h]
      have hfx : (if (key x == i) = true then g x else x) = x := by simp [hx]
      rw [List.map_cons, hfx, List.find?_cons_of_neg _ (by simp [hx]),
        List.find?_cons_of_neg _ (by simp [hx]), ih]

/-- A row rewrite applied to the rows selected by a key leaves every field it
does not touch unchanged across the whole table. -/
theorem map_field_preserved {α β : Type} (fld : α → β) (key : α → Nat)
    (l : List α) (i : Nat) (g : α → α) (hg : ∀ u, fld (g u) = fld u) :
    (l.map (fun x => if key x == i then g x else x)).map fld = l.map fld := by
  induction l with
  | nil => rfl
  | cons x xs ih =>
    simp only [List.map_cons, ih]
    cases hx : (key x == i) with
    | true => simp [hx, hg x]
    | false => simp [hx]

/-- After filtering the rows of a key out, findUnique by that key finds none. -/
theorem find_filter_out_key {α : Type} (key : α → Nat) (l : List α) (i : Nat) :
    (l.filter (fun x => !(key x == i))).find? (fun x => key x == i) = none := by
  rw [List.find?_eq_none]
  intro a ha
  have := (List.mem_filter.mp ha).2
  simp at this
  simp [this]

/-- Every element of a list occurs in a one-element page of it. -/
theorem mem_take_one_drop {α : Type} (l : List α) (a : α) (h : a ∈ l) :
    ∃ p, a ∈ (l.drop p).take 1 := by
  induction l with
  | nil => cases h
  | cons x xs ih =>
    rcases List.mem_cons.mp h with h | h
    · exact ⟨0, by simp [h]⟩
    · obtain ⟨p, hp⟩ := ih h
      exact ⟨p + 1, hp⟩

/-- The users table is untouched by the audit write tail. -/
theorem withAudit_users (b : Bool) (e : AuditEntry) (c : Nat) (db : DB) :
    ((withAudit b e c db).2).users = db.users := by
  cases b <;> rfl

/-- The expenses table is untouched by the audit write tail. -/
theorem withAudit_expenses (b : Bool) (e : AuditEntry) (c : Nat) (db : DB) :
    ((withAudit b e c db).2).expenses = db.expenses := by
  cases b <;> rfl

/-- A successful expense creation appends exactly one audit entry of the caller. -/
theorem createExpense_audit (c : AuthUser) (input : ExpenseInput)
    (file : Option String) (db : DB) :
    (createExpense c input file true db).1 < 400 →
    ∃ entry, (createExpense c input file true db).2.audit = db.audit ++ [entry]
      ∧ entry.userId = c.id := by
  unfold createExpense
  by_cases hv : validateExpenseInput input = true
  · rw [if_pos hv]
    intro _
    exact ⟨_, rfl, rfl⟩
  · rw [if_neg hv]
    intro h
    simp at h

/-- A successful expense edit appends exactly one audit entry of the caller. -/
theorem updateExpense_audit (c : AuthUser) (i : Nat) (input : ExpenseInput)
    (file : Option String) (db : DB) :
    (updateExpense c i input file true db).1 < 400 →
    ∃ entry, (updateExpense c i input file true db).2.audit = db.audit ++ [entry]
      ∧ entry.userId = c.id := by
  unfold updateExpense
  cases hfind : db.expenses.find? (fun e => e.id == i) with
  | none =>
    intro h
    simp at h
  | some ex =>
    dsimp only
    by_cases hg : c.role = Role.EMPLOYEE ∧ ex.userId ≠ c.id
    · rw [if_pos hg]
      intro h
      simp at h
    · rw [if_neg hg]
      by_cases hv : validateExpenseInput input = true
      · rw [if_pos hv]
        intro _
        exact ⟨_, rfl, rfl⟩
      · rw [if_neg hv]
        intro h
        simp at h

/-- A successful status change appends exactly one audit entry of the caller. -/
theorem updateExpenseStatus_audit (c : AuthUser) (i : Nat) (s : ExpenseStatus)
    (reason : Option String) (db : DB) :
    (updateExpenseStatus c i s reason true db).1 < 400 →
    ∃ entry, (updateExpenseStatus c i s reason true db).2.audit
        = db.audit ++ [entry] ∧ entry.userId = c.id := by
  unfold updateExpenseStatus
  by_cases hr : c.role = Role.ADMIN
  · rw [if_pos hr]
    by_cases hs : s = ExpenseStatus.APPROVED ∨ s = ExpenseStatus.REJECTED
    · rw [if_pos hs]
      cases hfind : db.expenses.find? (fun e => e.id == i) with
      | none =>
        intro h
        simp at h
      | some ex =>
        intro _
        exact ⟨_, rfl, rfl⟩
    · rw [if_neg hs]
      intro h
      simp at h
  · rw [if_neg hr]
    intro h
    simp at h

/-- A successful expense export appends exactly one audit entry of the caller. -/
theorem exportExpenses_audit (c : AuthUser) (f : ExpenseFilter) (db : DB) :
    (exportExpenses c f true db).1 < 400 →
    ∃ entry, (exportExpenses c f true db).2.audit = db.audit ++ [entry]
      ∧ entry.userId = c.id := by
  unfold exportExpenses
  by_cases hr : c.role = Role.ADMIN
  · rw [if_pos hr]
    intro _
    exact ⟨_, rfl, rfl⟩
  · rw [if_neg hr]
    intro h
    simp at h

/-- A successful login appends exactly one audit entry of the user found by
email. -/
theorem login_audit (email pwd : String) (db : DB) :
    loginCode (login email pwd true db).1 < 400 →
    ∃ entry, (login email pwd true db).2.audit = db.audit ++ [entry] ∧
      entry.userId = (match db.users.find? (fun u => u.email == email) with
        | some u => u.id
        | none => 0) := by
  unfold login
  by_cases hv : validateLogin email pwd = true
  · rw [if_pos hv]
    cases hfind : db.users.find? (fun u => u.email == email) with
    | none =>
      intro h
      simp [loginCode] at h
    | some u =>
      dsimp only
      by_cases hb : bcryptCompare pwd u.password = true
      · rw [if_pos hb]
        intro _
        exact ⟨_, rfl, rfl⟩
      · rw [if_neg hb]
        intro h
        simp [loginCode] at h
  · rw [if_neg hv]
    intro h
    simp [loginCode] at h

/-- A logout appends exactly one audit entry of the caller. -/
theorem logout_audit (c : AuthUser) (db : DB) :
    (logout c true db).1 < 400 →
    ∃ entry, (logout c true db).2.audit = db.audit ++ [entry]
      ∧ entry.userId = c.id := by
  intro _
  exact ⟨_, rfl, rfl⟩

/-- A successful user creation appends exactly one audit entry of the caller. -/
theorem createUser_audit (c : AuthUser) (input : UserInput) (db : DB) :
    (createUser c input true db).1 < 400 →
    ∃ entry, (createUser c input true db).2.audit = db.audit ++ [entry]
      ∧ entry.userId = c.id := by
  unfold createUser
  by_cases hr : c.role = Role.ADMIN
  · rw [if_pos hr]
    by_cases hv : validateUserInput input = true
    · rw [if_pos hv]
      cases hfind : db.users.find? (fun u => u.email == input.email) with
      | none =>
        intro _
        exact ⟨_, rfl, rfl⟩
      | some u =>
        intro h
        simp at h
    · rw [if_neg hv]
      intro h
      simp at h
  · rw [if_neg hr]
    intro h
    simp at h

/-- A successful user update appends exactly one audit entry of the caller. -/
theorem updateUser_audit (c : AuthUser) (i : Nat) (input : UserUpdateInput)
    (db : DB) :
    (updateUser c i input true db).1 < 400 →
    ∃ entry, (updateUser c i input true db).2.audit = db.audit ++ [entry]
      ∧ entry.userId = c.id := by
  unfold updateUser
  by_cases hr : c.role = Role.ADMIN
  · rw [if_pos hr]
    by_cases hv : validateUserUpdateInput input = true
    · rw [if_pos hv]
      cases hfind : db.users.find? (fun u => u.id == i) with
      | none =>
        intro h
        simp at h
      | some ex =>
        dsimp only
        by_cases hc : emailChanged input ex ∧
            (db.users.find? (fun u => u.email == jsOrStr input.email "")).isSome
        · rw [if_pos hc]
          intro h
          simp at h
        · rw [if_neg hc]
          intro _
          exact ⟨_, rfl, rfl⟩
    · rw [if_neg hv]
      intro h
      simp at h
  · rw [if_neg hr]
    intro h
    simp at h

/-- A successful user delete appends exactly one audit entry of the caller to
the audit log remaining after the cascade. -/
theorem deleteUser_audit (c : AuthUser) (i : Nat) (db : DB) :
    (deleteUser c i true db).1 < 400 →
    ∃ entry, (deleteUser c i true db).2.audit
        = db.audit.filter (fun a => !(a.userId == i)) ++ [entry]
      ∧ entry.userId = c.id := by
  unfold deleteUser
  by_cases hr : c.role = Role.ADMIN
  · rw [if_pos hr]
    cases hfind : db.users.find? (fun u => u.id == i) with
    | none =>
      intro h
      simp at h
    | some u =>
      dsimp only
      by_cases hself : u.id = c.id
      · rw [if_pos hself]
        intro h
        simp at h
      · rw [if_neg hself]
        intro _
        exact ⟨_, rfl, rfl⟩
  · rw [if_neg hr]
    intro h
    simp at h

/-- A successful audit export appends exactly one audit entry of the caller. -/
theorem exportAudit_audit (c : AuthUser) (db : DB) :
    (exportAudit c true db).1 < 400 →
    ∃ entry, (exportAudit c true db).2.audit = db.audit ++ [entry]
      ∧ entry.userId = c.id := by
  unfold exportAudit
  by_cases hr : c.role = Role.ADMIN
  · rw [if_pos hr]
    intro _
    exact ⟨_, rfl, rfl⟩
  · rw [if_neg hr]
    intro h
    simp at h

/-- The single expense read never changes the state. -/
theorem getExpense_pure (c : AuthUser) (i : Nat) (db : DB) :
    (getExpense c i db).2 = db := by
  unfold getExpense
  cases hfind : db.expenses.find? (fun e => e.id == i) with
  | none => rfl
  | some e =>
    dsimp only
    split <;> rfl

/-- The admin gated reads never change the state. -/
theorem adminRead_pure (c : AuthUser) (b : Bool) (db : DB) :
    (adminRead c b db).2 = db := by
  unfold adminRead
  by_cases hr : c.role = Role.ADMIN
  · rw [if_pos hr]
    cases b <;> rfl
  · rw [if_neg hr]

/-- The users and expenses tables after an expense creation do not depend on
whether the audit write succeeds. -/
theorem createExpense_indep (c : AuthUser) (input : ExpenseInput)
    (file : Option String) (db : DB) (b : Bool) :
    (createExpense c input file b db).2.users
        = (createExpense c input file true db).2.users
    ∧ (createExpense c input file b db).2.expenses
        = (createExpense c input file true db).2.expenses := by
  unfold createExpense
  by_cases hv : validateExpenseInput input = true
  · rw [if_pos hv, if_pos hv]
    exact ⟨by rw [withAudit_users, withAudit_users],
      by rw [withAudit_expenses, withAudit_expenses]⟩
  · rw [if_neg hv, if_neg hv]
    exact ⟨rfl, rfl⟩

/-- The users and expenses tables after an expense edit do not depend on
whether the audit write succeeds. -/
theorem updateExpense_indep (c : AuthUser) (i : Nat) (input : ExpenseInput)
    (file : Option String) (db : DB) (b : Bool) :
    (updateExpense c i input file b db).2.users
        = (updateExpense c i input file true db).2.users
    ∧ (updateExpense c i input file b db).2.expenses
        = (updateExpense c i input file true db).2.expenses := by
  unfold updateExpense
  cases hfind : db.expenses.find? (fun e => e.id == i) with
  | none => exact ⟨rfl, rfl⟩
  | some ex =>
    dsimp only
    by_cases hg : c.role = Role.EMPLOYEE ∧ ex.userId ≠ c.id
    · rw [if_pos hg, if_pos hg]
      exact ⟨rfl, rfl⟩
    · rw [if_neg hg, if_neg hg]
      by_cases hv : validateExpenseInput input = true
      · rw [if_pos hv, if_pos hv]
        exact ⟨by rw [withAudit_users, withAudit_users],
          by rw [withAudit_expenses, withAudit_expenses]⟩
      · rw [if_neg hv, if_neg hv]
        exact ⟨rfl, rfl⟩

/-- The users and expenses tables after a status change do not depend on
whether the audit write succeeds. -/
theorem updateExpenseStatus_indep (c : AuthUser) (i : Nat) (s : ExpenseStatus)
    (reason : Option String) (db : DB) (b : Bool) :
    (updateExpenseStatus c i s reason b db).2.users
        = (updateExpenseStatus c i s reason true db).2.users
    ∧ (updateExpenseStatus c i s reason b db).2.expenses
        = (updateExpenseStatus c i s reason true db).2.expenses := by
  unfold updateExpenseStatus
  by_cases hr : c.role = Role.ADMIN
  · rw [if_pos hr, if_pos hr]
    by_cases hs : s = ExpenseStatus.APPROVED ∨ s = ExpenseStatus.REJECTED
    · rw [if_pos hs, if_pos hs]
      cases hfind : db.expenses.find? (fun e => e.id == i) with
      | none => exact ⟨rfl, rfl⟩
      | some ex =>
        exact ⟨by rw [withAudit_users, withAudit_users],
          by rw [withAudit_expenses, withAudit_expenses]⟩
    · rw [if_neg hs, if_neg hs]
      exact ⟨rfl, rfl⟩
  · rw [if_neg hr, if_neg hr]
    exact ⟨rfl, rfl⟩

/-- The users and expenses tables after an expense export do not depend on
whether the audit write succeeds. -/
theorem exportExpenses_indep (c : AuthUser) (f : ExpenseFilter) (db : DB)
    (b : Bool) :
    (exportExpenses c f b db).2.users = (exportExpenses c f true db).2.users
    ∧ (exportExpenses c f b db).2.expenses
        = (exportExpenses c f true db).2.expenses := by
  unfold exportExpenses
  by_cases hr : c.role = Role.ADMIN
  · rw [if_pos hr, if_pos hr]
    cases b <;> exact ⟨rfl, rfl⟩
  · rw [if_neg hr, if_neg hr]
    exact ⟨rfl, rfl⟩

/-- The users and expenses tables after a login do not depend on whether the
audit write succeeds. -/
theorem login_indep (email pwd : String) (db : DB) (b : Bool) :
    (login email pwd b db).2.users = (login email pwd true db).2.users
    ∧ (login email pwd b db).2.expenses
        = (login email pwd true db).2.expenses := by
  unfold login
  by_cases hv : validateLogin email pwd = true
  · rw [if_pos hv, if_pos hv]
    cases hfind : db.users.find? (fun u => u.email == email) with
    | none => exact ⟨rfl, rfl⟩
    | some u =>
      dsimp only
      by_cases hb : bcryptCompare pwd u.password = true
      · rw [if_pos hb, if_pos hb]
        cases b <;> exact ⟨rfl, rfl⟩
      · rw [if_neg hb, if_neg hb]
        exact ⟨rfl, rfl⟩
  · rw [if_neg hv, if_neg hv]
    exact ⟨rfl, rfl⟩

/-- The users and expenses tables after a logout do not depend on whether the
audit write succeeds. -/
theorem logout_indep (c : AuthUser) (db : DB) (b : Bool) :
    (logout c b db).2.users = (logout c true db).2.users
    ∧ (logout c b db).2.expenses = (logout c true db).2.expenses := by
  unfold logout
  exact ⟨by rw [withAudit_users, withAudit_users],
    by rw [withAudit_expenses, withAudit_expenses]⟩

/-- The users and expenses tables after a user creation do not depend on
whether the audit write succeeds. -/
theorem createUser_indep (c : AuthUser) (input : UserInput) (db : DB)
    (b : Bool) :
    (createUser c input b db).2.users = (createUser c input true db).2.users
    ∧ (createUser c input b db).2.expenses
        = (createUser c input true db).2.expenses := by
  unfold createUser
  by_cases hr : c.role = Role.ADMIN
  · rw [if_pos hr, if_pos hr]
    by_cases hv : validateUserInput input = true
    · rw [if_pos hv, if_pos hv]
      cases hfind : db.users.find? (fun u => u.email == input.email) with
      | none =>
        exact ⟨by rw [withAudit_users, withAudit_users],
          by rw [withAudit_expenses, withAudit_expenses]⟩
      | some u => exact ⟨rfl, rfl⟩
    · rw [if_neg hv, if_neg hv]
      exact ⟨rfl, rfl⟩
  · rw [if_neg hr, if_neg hr]
    exact ⟨rfl, rfl⟩

/-- The users and expenses tables after a user update do not depend on whether
the audit write succeeds. -/
theorem updateUser_indep (c : AuthUser) (i : Nat) (input : UserUpdateInput)
    (db : DB) (b : Bool) :
    (updateUser c i input b db).2.users = (updateUser c i input true db).2.users
    ∧ (updateUser c i input b db).2.expenses
        = (updateUser c i input true db).2.expenses := by
  unfold updateUser
  by_cases hr : c.role = Role.ADMIN
  · rw [if_pos hr, if_pos hr]
    by_cases hv : validateUserUpdateInput input = true
    · rw [if_pos hv, if_pos hv]
      cases hfind : db.users.find? (fun u => u.id == i) with
      | none => exact ⟨rfl, rfl⟩
      | some ex =>
        dsimp only
        by_cases hc : emailChanged input ex ∧
            (db.users.find? (fun u => u.email == jsOrStr input.email "")).isSome
        · rw [if_pos hc, if_pos hc]
          exact ⟨rfl, rfl⟩
        · rw [if_neg hc, if_neg hc]
          exact ⟨by rw [withAudit_users, withAudit_users],
            by rw [withAudit_expenses, withAudit_expenses]⟩
    · rw [if_neg hv, if_neg hv]
      exact ⟨rfl, rfl⟩
  · rw [if_neg hr, if_neg hr]
    exact ⟨rfl, rfl⟩

/-- The users and expenses tables after a user delete do not depend on whether
the audit write succeeds. -/
theorem deleteUser_indep (c : AuthUser) (i : Nat) (db : DB) (b : Bool) :
    (deleteUser c i b db).2.users = (deleteUser c i true db).2.users
    ∧ (deleteUser c i b db).2.expenses = (deleteUser c i true db).2.expenses := by
  unfold deleteUser
  by_cases hr : c.role = Role.ADMIN
  · rw [if_pos hr, if_pos hr]
    cases hfind : db.users.find? (fun u => u.id == i) with
    | none => exact ⟨rfl, rfl⟩
    | some u =>
      dsimp only
      by_cases hself : u.id = c.id
      · rw [if_pos hself, if_pos hself]
        exact ⟨rfl, rfl⟩
      · rw [if_neg hself, if_neg hself]
        exact ⟨by rw [withAudit_users, withAudit_users],
          by rw [withAudit_expenses, withAudit_expenses]⟩
  · rw [if_neg hr, if_neg hr]
    exact ⟨rfl, rfl⟩

/-- The users and expenses tables after an audit export do not depend on
whether the audit write succeeds. -/
theorem exportAudit_indep (c : AuthUser) (db : DB) (b : Bool) :
    (exportAudit c b db).2.users = (exportAudit c true db).2.users
    ∧ (exportAudit c b db).2.expenses = (exportAudit c true db).2.expenses := by
  unfold exportAudit
  by_cases hr : c.role = Role.ADMIN
  · rw [if_pos hr, if_pos hr]
    cases b <;> exact ⟨rfl, rfl⟩
  · rw [if_neg hr, if_neg hr]
    exact ⟨rfl, rfl⟩

/-! Claim theorems. -/

/-- C1: For every caller whose role is EMPLOYEE, the expense list operation
(GET /api/expenses) returns only rows whose userId equals the id of the caller,
for every combination of client-supplied category/status/date/page/limit
filters; for every caller whose role is ADMIN, no userId restriction is applied
and rows of all users can be returned (every stored row matching the client
filters is returned on some page, whatever its userId). -/
theorem expense_list_row_level_security :
    (∀ (caller : AuthUser) (f : ExpenseFilter) (db : DB) (e : Expense),
        caller.role = Role.EMPLOYEE → e ∈ listExpenses caller f db →
        e.userId = caller.id)
    ∧ (∀ (caller : AuthUser) (f : ExpenseFilter) (db : DB) (e : Expense),
        caller.role = Role.ADMIN → e ∈ db.expenses → matchesFilters f e = true →
        ∃ p, e ∈ listExpenses caller
          { f with page := some (p + 1), limit := some 1 } db) := by
  constructor
  · intro caller f db e hrole hmem
    simp only [listExpenses] at hmem
    have h1 : e ∈ (db.expenses.filter (matchesWhere caller f)).insertionSort createdDesc :=
      List.drop_subset _ _ (List.take_subset _ _ hmem)
    have h2 : e ∈ db.expenses.filter (matchesWhere caller f) :=
      (List.perm_insertionSort createdDesc _).mem_iff.mp h1
    have h3 := (List.mem_filter.mp h2).2
    simp [matchesWhere, hrole, Bool.and_eq_true] at h3
    exact h3.1
  · intro caller f db e hrole hmem hf
    have hw2 : ∀ (p L : Nat) (x : Expense),
        matchesWhere caller { f with page := some p, limit := some L } x
          = matchesWhere caller f x := by
      intro p L x
      rfl
    have hw : matchesWhere caller
        { f with page := some 0, limit := some 1 } e = true := by
      rw [hw2]
      simp [matchesWhere, hrole]
      simpa [matchesFilters] using hf
    have hmemfilter : e ∈ db.expenses.filter
        (matchesWhere caller { f with page := some 0, limit := some 1 }) :=
      List.mem_filter.mpr ⟨hmem, hw⟩
    have hmemL : e ∈ (db.expenses.filter
        (matchesWhere caller { f with page := some 0, limit := some 1 })).insertionSort
          createdDesc :=
      (List.perm_insertionSort createdDesc _).mem_iff.mpr hmemfilter
    obtain ⟨p, hp⟩ := mem_take_one_drop _ e hmemL
    refine ⟨p, ?_⟩
    simp only [listExpenses, Option.getD_some, Nat.add_sub_cancel, Nat.mul_one]
    have hsame : db.expenses.filter
          (matchesWhere caller { f with page := some (p + 1), limit := some 1 })
        = db.expenses.filter
          (matchesWhere caller { f with page := some 0, limit := some 1 }) := by
      apply List.filter_congr
      intro x _
      rw [hw2, hw2]

    rw [hsame]
    exact hp

/-- Witness for C1: in the sample database the employee list call returns the
approved expense of the employee, whose userId is the employee; and for the
administrator the same row (owned by user 2, not the admin) is returned on some
page. -/
theorem expense_list_row_level_security_witness :
    expApproved.userId = empCtx.id ∧
    ∃ p, expApproved ∈ listExpenses adminCtx
      { emptyFilter with page := some (p + 1), limit := some 1 } sampleDb := by
  constructor
  · exact expense_list_row_level_security.1 empCtx emptyFilter sampleDb expApproved
      rfl (by decide)
  · exact expense_list_row_level_security.2 adminCtx emptyFilter sampleDb expApproved
      rfl (by decide) (by decide)

/-- C2: For every existing expense and every authorized edit of its content
fields (owner EMPLOYEE or any ADMIN, via PUT /api/expenses/:id) with a body
passing validation, the edit succeeds and the status of the updated expense is
PENDING afterwards, whatever the status before the edit was. -/
theorem edit_resets_status_to_pending :
    ∀ (caller : AuthUser) (i : Nat) (input : ExpenseInput) (file : Option String)
      (db : DB) (ex : Expense),
      db.expenses.find? (fun e => e.id == i) = some ex →
      (caller.role = Role.ADMIN ∨ ex.userId = caller.id) →
      validateExpenseInput input = true →
      (updateExpense caller i input file true db).1 = 200 ∧
      ∃ ex2, (updateExpense caller i input file true db).2.expenses.find?
          (fun e => e.id == i) = some ex2 ∧ ex2.status = ExpenseStatus.PENDING := by
  intro caller i input file db ex hfind hauth hvalid
  have hguard : ¬ (caller.role = Role.EMPLOYEE ∧ ex.userId ≠ caller.id) := by
    rintro ⟨hr, hne⟩
    rcases hauth with h | h
    · rw [h] at hr
      exact Role.noConfusion hr
    · exact hne h
  unfold updateExpense
  rw [hfind]
  dsimp only
  rw [if_neg hguard, if_pos hvalid]
  refine ⟨rfl, updatedContent input file ex, ?_, rfl⟩
  show (db.expenses.map
      (fun x => if x.id == i then updatedContent input file x else x)).find?
      (fun e => e.id == i) = some (updatedContent input file ex)
  rw [find_map_ite_key Expense.id db.expenses i (updatedContent input file)
    (fun _ => rfl), hfind]
  rfl

/-- Witness for C2: the employee edits their own approved expense with a valid
body; the call answers 200 and the stored status is PENDING again. -/
theorem edit_resets_status_to_pending_witness :
    (updateExpense empCtx 10 sampleInput none true sampleDb).1 = 200 ∧
    ∃ ex2, (updateExpense empCtx 10 sampleInput none true sampleDb).2.expenses.find?
        (fun e => e.id == 10) = some ex2 ∧ ex2.status = ExpenseStatus.PENDING :=
  edit_resets_status_to_pending empCtx 10 sampleInput none sampleDb expApproved
    (by decide) (Or.inr rfl) (by decide)

/-- C3 counterexample: the claim says the status endpoint never changes the
status of an expense whose current status is APPROVED or REJECTED. In the
sample database expense 10 is APPROVED, yet the admin status call with target
REJECTED overwrites it: the handler never inspects the current status. -/
theorem status_update_overwrites_decided_expense :
    ((sampleDb.expenses.find? (fun e => e.id == 10)).map Expense.status
        = some ExpenseStatus.APPROVED)
    ∧ (((updateExpenseStatus adminCtx 10 ExpenseStatus.REJECTED none true
          sampleDb).2.expenses.find? (fun e => e.id == 10)).map Expense.status
        = some ExpenseStatus.REJECTED) := by
  exact ⟨by decide, by decide⟩

/-- C3 amended: the status endpoint is callable only by an ADMIN (a non admin
caller receives 403 and the state is unchanged), accepts only APPROVED or
REJECTED as target status (PENDING is rejected with 400), and on an existing
expense overwrites the stored status with the requested one regardless of the
current status, so an already APPROVED or already REJECTED expense can be
redecided by this endpoint as well. -/
theorem status_update_amended :
    ∀ (caller : AuthUser) (i : Nat) (s : ExpenseStatus) (reason : Option String)
      (db : DB),
      (caller.role ≠ Role.ADMIN →
        updateExpenseStatus caller i s reason true db = (403, db))
      ∧ (caller.role = Role.ADMIN → s = ExpenseStatus.PENDING →
        updateExpenseStatus caller i s reason true db = (400, db))
      ∧ (∀ ex, caller.role = Role.ADMIN →
          (s = ExpenseStatus.APPROVED ∨ s = ExpenseStatus.REJECTED) →
          db.expenses.find? (fun e => e.id == i) = some ex →
          (updateExpenseStatus caller i s reason true db).1 = 200 ∧
          (updateExpenseStatus caller i s reason true db).2.expenses.find?
              (fun e => e.id == i)
            = some { ex with
                     status := s
                     rejectionReason := reasonWrite reason ex.rejectionReason }) := by
  intro caller i s reason db
  refine ⟨?_, ?_, ?_⟩
  · intro h
    unfold updateExpenseStatus
    rw [if_neg h]
  · intro hr hs
    subst hs
    unfold updateExpenseStatus
    rw [if_pos hr, if_neg (by simp)]
  · intro ex hr hs hfind
    unfold updateExpenseStatus
    rw [if_pos hr, if_pos hs, hfind]
    dsimp only
    refine ⟨rfl, ?_⟩
    rw [withAudit_expenses]
    dsimp only
    rw [find_map_ite_key Expense.id db.expenses i
      (fun x => { x with
        status := s
        rejectionReason := reasonWrite reason x.rejectionReason })
      (fun _ => rfl), hfind]
    rfl

/-- Witness for the amended C3: the employee caller gets 403; the admin target
PENDING gets 400; and the admin redecision of the already approved expense 10
to REJECTED answers 200 and stores REJECTED. -/
theorem status_update_amended_witness :
    (updateExpenseStatus empCtx 10 ExpenseStatus.APPROVED none true sampleDb
        = (403, sampleDb))
    ∧ (updateExpenseStatus adminCtx 10 ExpenseStatus.PENDING none true sampleDb
        = (400, sampleDb))
    ∧ ((updateExpenseStatus adminCtx 10 ExpenseStatus.REJECTED none true
          sampleDb).1 = 200 ∧
        (updateExpenseStatus adminCtx 10 ExpenseStatus.REJECTED none true
          sampleDb).2.expenses.find? (fun e => e.id == 10)
          = some { expApproved with
                   status := ExpenseStatus.REJECTED
                   rejectionReason := reasonWrite none expApproved.rejectionReason }) :=
  ⟨(status_update_amended empCtx 10 ExpenseStatus.APPROVED none sampleDb).1
      (by decide),
    (status_update_amended adminCtx 10 ExpenseStatus.PENDING none sampleDb).2.1
      rfl rfl,
    (status_update_amended adminCtx 10 ExpenseStatus.REJECTED none sampleDb).2.2
      expApproved rfl (Or.inr rfl) (by decide)⟩

/-- C4 counterexample: the claim says no operation whose resulting status is
APPROVED writes a rejection reason. The admin approves the pending expense 11
while supplying a reason; the handler spreads the truthy reason into the update
regardless of the requested status, so the stored row ends APPROVED with
rejectionReason set. -/
theorem approval_writes_rejection_reason :
    (((updateExpenseStatus adminCtx 11 ExpenseStatus.APPROVED (some "dup") true
          sampleDb).2.expenses.find? (fun e => e.id == 11)).map Expense.status
        = some ExpenseStatus.APPROVED)
    ∧ (((updateExpenseStatus adminCtx 11 ExpenseStatus.APPROVED (some "dup") true
          sampleDb).2.expenses.find? (fun e => e.id == 11)).map
          Expense.rejectionReason
        = some (some "dup")) := by
  exact ⟨by decide, by decide⟩

/-- C4 amended: the rejectionReason field is written only by the status
endpoint, which writes it exactly when a nonempty reason is supplied,
regardless of whether the requested status is APPROVED or REJECTED; with an
absent reason the stored value is kept, a content edit never touches it, and a
newly created expense has none. -/
theorem rejection_reason_amended :
    (∀ (caller : AuthUser) (i : Nat) (s : ExpenseStatus) (r : String) (db : DB)
        (ex : Expense),
        caller.role = Role.ADMIN →
        (s = ExpenseStatus.APPROVED ∨ s = ExpenseStatus.REJECTED) →
        r ≠ "" →
        db.expenses.find? (fun e => e.id == i) = some ex →
        ((updateExpenseStatus caller i s (some r) true db).2.expenses.find?
            (fun e => e.id == i)).map Expense.rejectionReason = some (some r))
    ∧ (∀ (caller : AuthUser) (i : Nat) (s : ExpenseStatus) (db : DB) (ex : Expense),
        db.expenses.find? (fun e => e.id == i) = some ex →
        ((updateExpenseStatus caller i s none true db).2.expenses.find?
            (fun e => e.id == i)).map Expense.rejectionReason
          = some ex.rejectionReason)
    ∧ (∀ (caller : AuthUser) (i : Nat) (input : ExpenseInput)
        (file : Option String) (db : DB) (ex : Expense),
        db.expenses.find? (fun e => e.id == i) = some ex →
        ((updateExpense caller i input file true db).2.expenses.find?
            (fun e => e.id == i)).map Expense.rejectionReason
          = some ex.rejectionReason)
    ∧ (∀ (caller : AuthUser) (input : ExpenseInput) (file : Option String)
        (db : DB),
        (newExpenseOf caller input file db).rejectionReason = none) := by
  refine ⟨?_, ?_, ?_, fun _ _ _ _ => rfl⟩
  · intro caller i s r db ex hr hs hne hfind
    unfold updateExpenseStatus
    rw [if_pos hr, if_pos hs, hfind]
    dsimp only
    rw [withAudit_expenses]
    dsimp only
    rw [find_map_ite_key Expense.id db.expenses i
      (fun x => { x with
        status := s
        rejectionReason := reasonWrite (some r) x.rejectionReason })
      (fun _ => rfl), hfind]
    simp [reasonWrite, hne]
  · intro caller i s db ex hfind
    unfold updateExpenseStatus
    by_cases hr : caller.role = Role.ADMIN
    · rw [if_pos hr]
      by_cases hs : s = ExpenseStatus.APPROVED ∨ s = ExpenseStatus.REJECTED
      · rw [if_pos hs, hfind]
        dsimp only
        rw [withAudit_expenses]
        dsimp only
        rw [find_map_ite_key Expense.id db.expenses i
          (fun x => { x with
            status := s
            rejectionReason := reasonWrite none x.rejectionReason })
          (fun _ => rfl), hfind]
        rfl
      · rw [if_neg hs]
        simp [hfind]
    · rw [if_neg hr]
      simp [hfind]
  · intro caller i input file db ex hfind
    unfold updateExpense
    rw [hfind]
    dsimp only
    by_cases hg : caller.role = Role.EMPLOYEE ∧ ex.userId ≠ caller.id
    · rw [if_pos hg]
      simp [hfind]
    · rw [if_neg hg]
      by_cases hv : validateExpenseInput input = true
      · rw [if_pos hv]
        rw [withAudit_expenses]
        dsimp only
        rw [find_map_ite_key Expense.id db.expenses i (updatedContent input file)
          (fun _ => rfl), hfind]
        rfl
      · rw [if_neg hv]
        simp [hfind]

/-- Witness for the amended C4: the concrete approval with reason writes the
reason; the concrete rejection without a reason keeps the stored none; a
concrete content edit keeps it; a concrete creation starts with none. -/
theorem rejection_reason_amended_witness :
    (((updateExpenseStatus adminCtx 11 ExpenseStatus.APPROVED (some "dup") true
          sampleDb).2.expenses.find? (fun e => e.id == 11)).map
          Expense.rejectionReason = some (some "dup"))
    ∧ (((updateExpenseStatus adminCtx 11 ExpenseStatus.REJECTED none true
          sampleDb).2.expenses.find? (fun e => e.id == 11)).map
          Expense.rejectionReason = some expPending.rejectionReason)
    ∧ (((updateExpense empCtx 10 sampleInput none true sampleDb).2.expenses.find?
          (fun e => e.id == 10)).map Expense.rejectionReason
        = some expApproved.rejectionReason)
    ∧ ((newExpenseOf empCtx sampleInput none sampleDb).rejectionReason = none) :=
  ⟨rejection_reason_amended.1 adminCtx 11 ExpenseStatus.APPROVED "dup" sampleDb
      expPending rfl (Or.inl rfl) (by decide) (by decide),
    rejection_reason_amended.2.1 adminCtx 11 ExpenseStatus.REJECTED sampleDb
      expPending (by decide),
    rejection_reason_amended.2.2.1 empCtx 10 sampleInput none sampleDb
      expApproved (by decide),
    rejection_reason_amended.2.2.2 empCtx sampleInput none sampleDb⟩

/-- C7: For every login attempt passing input validation whose credentials are
invalid, whether the email matches no stored user or the password does not
match the stored hash, the login operation returns the identical response:
status 401 with error Invalid credentials and the same message, and the state
is unchanged, so the two failure causes are indistinguishable to the caller. -/
theorem login_failure_indistinguishable :
    ∀ (db : DB) (email pwd : String),
      validateLogin email pwd = true →
      validCredentials db email pwd = false →
      login email pwd true db
        = (LoginReply.err 401 "Invalid credentials" "Email or password is incorrect",
           db) := by
  intro db email pwd hv hc
  unfold login
  rw [if_pos hv]
  unfold validCredentials at hc
  cases hfind : db.users.find? (fun u => u.email == email) with
  | none =>
    rfl
  | some u =>
    rw [hfind] at hc
    dsimp only at hc ⊢
    rw [if_neg (by simp [hc])]

/-- Witness for C7: a login for an unknown email and a login for the stored
employee with a wrong password both produce the identical 401 response on the
sample database. -/
theorem login_failure_indistinguishable_witness :
    (login "ghost@example.com" "password123" true sampleDb
      = (LoginReply.err 401 "Invalid credentials" "Email or password is incorrect",
         sampleDb))
    ∧ (login "employee@example.com" "wrongpass" true sampleDb
      = (LoginReply.err 401 "Invalid credentials" "Email or password is incorrect",
         sampleDb)) :=
  ⟨login_failure_indistinguishable sampleDb "ghost@example.com" "password123"
      (by decide) (by decide),
    login_failure_indistinguishable sampleDb "employee@example.com" "wrongpass"
      (by decide) (by decide)⟩

/-- C8: For every ADMIN caller, the user delete operation fails with 400 and
leaves the whole state (in particular the record of the caller) unchanged when
the target id equals the id of the caller, while deleting a different existing
user succeeds (200) and removes that user. -/
theorem admin_cannot_delete_self :
    ∀ (c : AuthUser) (db : DB),
      c.role = Role.ADMIN →
      (∀ u, db.users.find? (fun x => x.id == c.id) = some u →
          deleteUser c c.id true db = (400, db))
      ∧ (∀ i u, db.users.find? (fun x => x.id == i) = some u → u.id ≠ c.id →
          (deleteUser c i true db).1 = 200 ∧
          (deleteUser c i true db).2.users.find? (fun x => x.id == i) = none) := by
  intro c db hr
  constructor
  · intro u hfind
    unfold deleteUser
    rw [if_pos hr, hfind]
    dsimp only
    have hid : u.id = c.id := by simpa using List.find?_some hfind
    rw [if_pos hid]
  · intro i u hfind hne
    unfold deleteUser
    rw [if_pos hr, hfind]
    dsimp only
    rw [if_neg hne]
    refine ⟨rfl, ?_⟩
    rw [withAudit_users]
    dsimp only
    exact find_filter_out_key User.id db.users i

/-- Witness for C8: on the sample database the admin cannot delete user 1
(their own id) but deletes employee 2. -/
theorem admin_cannot_delete_self_witness :
    (deleteUser adminCtx 1 true sampleDb = (400, sampleDb))
    ∧ ((deleteUser adminCtx 2 true sampleDb).1 = 200 ∧
        (deleteUser adminCtx 2 true sampleDb).2.users.find? (fun x => x.id == 2)
          = none) :=
  ⟨(admin_cannot_delete_self adminCtx sampleDb rfl).1 adminUser (by decide),
    (admin_cannot_delete_self adminCtx sampleDb rfl).2 2 empUser (by decide)
      (by decide)⟩

/-- C9: Fetching a single expense checks existence before ownership: an id
matching no expense answers 404 for every caller (an EMPLOYEE included), while
an existing expense owned by another user answers 403 to an EMPLOYEE, so the
two responses reveal to an EMPLOYEE whether the id of an expense of another
user exists. -/
theorem get_expense_404_before_403 :
    ∀ (caller : AuthUser) (i : Nat) (db : DB),
      (db.expenses.find? (fun e => e.id == i) = none →
        getExpense caller i db = (404, db))
      ∧ (∀ ex, db.expenses.find? (fun e => e.id == i) = some ex →
          caller.role = Role.EMPLOYEE → ex.userId ≠ caller.id →
          getExpense caller i db = (403, db)) := by
  intro caller i db
  constructor
  · intro h
    unfold getExpense
    rw [h]
  · intro ex h hr hne
    unfold getExpense
    rw [h]
    dsimp only
    rw [if_pos ⟨hr, hne⟩]

/-- Witness for C9: on the sample database the employee receives 404 for the
missing id 99 and 403 for the existing expense 11 of the administrator. -/
theorem get_expense_404_before_403_witness :
    (getExpense empCtx 99 sampleDb = (404, sampleDb))
    ∧ (getExpense empCtx 11 sampleDb = (403, sampleDb)) :=
  ⟨(get_expense_404_before_403 empCtx 99 sampleDb).1 (by decide),
    (get_expense_404_before_403 empCtx 11 sampleDb).2 expPending (by decide)
      rfl (by decide)⟩

/-- C10: The user update operation leaves every field it is not given
unchanged: with no password supplied every stored password hash is identical
before and after, an omitted (or empty) email or name and an omitted role keep
their stored values, and a user whose id differs from the target is never
modified. -/
theorem user_update_preserves_absent_fields :
    ∀ (caller : AuthUser) (i : Nat) (input : UserUpdateInput) (db : DB),
      (input.password = none →
        (updateUser caller i input true db).2.users.map User.password
          = db.users.map User.password)
      ∧ ((input.email = none ∨ input.email = some "") →
        (updateUser caller i input true db).2.users.map User.email
          = db.users.map User.email)
      ∧ ((input.name = none ∨ input.name = some "") →
        (updateUser caller i input true db).2.users.map User.name
          = db.users.map User.name)
      ∧ (input.role = none →
        (updateUser caller i input true db).2.users.map User.role
          = db.users.map User.role)
      ∧ (∀ u ∈ db.users, u.id ≠ i →
          u ∈ (updateUser caller i input true db).2.users) := by
  intro caller i input db
  have key : (updateUser caller i input true db).2.users = db.users
      ∨ (validateUserUpdateInput input = true ∧
          (updateUser caller i input true db).2.users
            = db.users.map (fun u => if u.id == i then updatedUser input u else u)) := by
    unfold updateUser
    by_cases hr : caller.role = Role.ADMIN
    · rw [if_pos hr]
      by_cases hv : validateUserUpdateInput input = true
      · rw [if_pos hv]
        cases hfind : db.users.find? (fun u => u.id == i) with
        | none =>
          left
          rfl
        | some ex =>
          dsimp only
          by_cases hc : emailChanged input ex ∧
              (db.users.find? (fun u => u.email == jsOrStr input.email "")).isSome
          · rw [if_pos hc]
            left
            rfl
          · rw [if_neg hc]
            right
            exact ⟨hv, by rw [withAudit_users]⟩
      · rw [if_neg hv]
        left
        rfl
    · rw [if_neg hr]
      left
      rfl
  refine ⟨?_, ?_, ?_, ?_, ?_⟩
  · intro hpw
    rcases key with h | ⟨_, h⟩
    · rw [h]
    · rw [h]
      exact map_field_preserved User.password User.id db.users i _
        (fun u => by simp [updatedUser, hpw])
  · intro hem
    rcases key with h | ⟨hv, h⟩
    · rw [h]
    · rcases hem with hem | hem
      · rw [h]
        exact map_field_preserved User.email User.id db.users i _
          (fun u => by simp [updatedUser, jsOrStr, hem])
      · exfalso
        have hvv := hv
        rw [validateUserUpdateInput, hem] at hvv
        simp only [Bool.and_eq_true] at hvv
        exact absurd hvv.1.1 (by decide)
  · intro hnm
    rcases key with h | ⟨hv, h⟩
    · rw [h]
    · rcases hnm with hnm | hnm
      · rw [h]
        exact map_field_preserved User.name User.id db.users i _
          (fun u => by simp [updatedUser, jsOrStr, hnm])
      · exfalso
        have hvv := hv
        rw [validateUserUpdateInput, hnm] at hvv
        simp only [Bool.and_eq_true] at hvv
        exact absurd hvv.2 (by decide)
  · intro hrl
    rcases key with h | ⟨_, h⟩
    · rw [h]
    · rw [h]
      exact map_field_preserved User.role User.id db.users i _
        (fun u => by simp [updatedUser, hrl])
  · intro u hu hne
    rcases key with h | ⟨_, h⟩
    · rw [h]
      exact hu
    · rw [h]
      have hfix : (fun v => if v.id == i then updatedUser input v else v) u = u := by
        simp [hne]
      have hmem := List.mem_map_of_mem
        (fun v => if v.id == i then updatedUser input v else v) hu
      rwa [hfix] at hmem

/-- Witness for C10: updating employee 2 with an empty body keeps every stored
password hash, email, name and role, and the administrator row survives. -/
theorem user_update_preserves_absent_fields_witness :
    ((updateUser adminCtx 2 emptyUserUpdate true sampleDb).2.users.map
        User.password = sampleDb.users.map User.password)
    ∧ ((updateUser adminCtx 2 emptyUserUpdate true sampleDb).2.users.map
        User.email = sampleDb.users.map User.email)
    ∧ ((updateUser adminCtx 2 emptyUserUpdate true sampleDb).2.users.map
        User.role = sampleDb.users.map User.role)
    ∧ adminUser ∈ (updateUser adminCtx 2 emptyUserUpdate true sampleDb).2.users :=
  ⟨(user_update_preserves_absent_fields adminCtx 2 emptyUserUpdate sampleDb).1 rfl,
    (user_update_preserves_absent_fields adminCtx 2 emptyUserUpdate sampleDb).2.1
      (Or.inl rfl),
    (user_update_preserves_absent_fields adminCtx 2 emptyUserUpdate
      sampleDb).2.2.2.1 rfl,
    (user_update_preserves_absent_fields adminCtx 2 emptyUserUpdate
      sampleDb).2.2.2.2 adminUser (by decide) (by decide)⟩

/-- C5: Every successful state-changing operation (expense create, expense
content update, expense status change, user create/update/delete, login,
logout, CSV export) appends exactly one new audit log entry, attributed to the
acting user (for login, the user found by email; otherwise the caller), on top
of the audit log left by the primary mutation (which the user delete cascade
may have shrunk); read-only operations leave the state untouched and so append
none. -/
theorem mutation_audit_exactly_one :
    ∀ (op : Op) (db : DB),
      (isMutatingOp op = true → (runOp op true db).1 < 400 →
        ∃ entry, (runOp op true db).2.audit = preAudit op db ++ [entry] ∧
          entry.userId = actorOf op db)
      ∧ (isMutatingOp op = false → (runOp op true db).2 = db) := by
  intro op db
  constructor
  · intro hm hcode
    cases op with
    | opListExpenses c f => simp [isMutatingOp] at hm
    | opGetExpense c i => simp [isMutatingOp] at hm
    | opListUsers c => simp [isMutatingOp] at hm
    | opGetUser c i => simp [isMutatingOp] at hm
    | opListAudit c => simp [isMutatingOp] at hm
    | opCreateExpense c input file => exact createExpense_audit c input file db hcode
    | opUpdateExpense c i input file =>
      exact updateExpense_audit c i input file db hcode
    | opUpdateStatus c i s reason =>
      exact updateExpenseStatus_audit c i s reason db hcode
    | opExportExpenses c f => exact exportExpenses_audit c f db hcode
    | opLogin email pwd => exact login_audit email pwd db hcode
    | opLogout c => exact logout_audit c db hcode
    | opCreateUser c input => exact createUser_audit c input db hcode
    | opUpdateUser c i input => exact updateUser_audit c i input db hcode
    | opDeleteUser c i => exact deleteUser_audit c i db hcode
    | opExportAudit c => exact exportAudit_audit c db hcode
  · intro hm
    cases op with
    | opListExpenses c f => rfl
    | opGetExpense c i => exact getExpense_pure c i db
    | opListUsers c => exact adminRead_pure c true db
    | opGetUser c i =>
      exact adminRead_pure c (db.users.find? (fun u => u.id == i)).isSome db
    | opListAudit c => exact adminRead_pure c true db
    | opCreateExpense c input file => simp [isMutatingOp] at hm
    | opUpdateExpense c i input file => simp [isMutatingOp] at hm
    | opUpdateStatus c i s reason => simp [isMutatingOp] at hm
    | opExportExpenses c f => simp [isMutatingOp] at hm
    | opLogin email pwd => simp [isMutatingOp] at hm
    | opLogout c => simp [isMutatingOp] at hm
    | opCreateUser c input => simp [isMutatingOp] at hm
    | opUpdateUser c i input => simp [isMutatingOp] at hm
    | opDeleteUser c i => simp [isMutatingOp] at hm
    | opExportAudit c => simp [isMutatingOp] at hm

/-- Witness for C5: on the sample database the expense creation by the employee
succeeds and appends exactly one entry of the employee, and the read-only
expense list leaves the state untouched. -/
theorem mutation_audit_exactly_one_witness :
    (∃ entry, (runOp (Op.opCreateExpense empCtx sampleInput none) true
          sampleDb).2.audit
        = preAudit (Op.opCreateExpense empCtx sampleInput none) sampleDb ++ [entry]
      ∧ entry.userId = actorOf (Op.opCreateExpense empCtx sampleInput none) sampleDb)
    ∧ (runOp (Op.opListExpenses empCtx emptyFilter) true sampleDb).2 = sampleDb :=
  ⟨(mutation_audit_exactly_one (Op.opCreateExpense empCtx sampleInput none)
      sampleDb).1 rfl (by decide),
    (mutation_audit_exactly_one (Op.opListExpenses empCtx emptyFilter)
      sampleDb).2 rfl⟩

/-- C6: If the audit write that follows a primary mutation fails, the primary
mutation is not rolled back: for every operation the users and expenses tables
end identical whether the audit write succeeds or throws; in particular a valid
expense creation whose audit write errors answers 500 yet the new expense is in
the store, with no audit entry appended. -/
theorem audit_failure_preserves_mutation :
    (∀ (op : Op) (db : DB),
        (runOp op false db).2.users = (runOp op true db).2.users ∧
        (runOp op false db).2.expenses = (runOp op true db).2.expenses)
    ∧ (∀ (caller : AuthUser) (input : ExpenseInput) (file : Option String)
        (db : DB),
        validateExpenseInput input = true →
        (createExpense caller input file false db).1 = 500 ∧
        (createExpense caller input file false db).2.expenses
          = db.expenses ++ [newExpenseOf caller input file db] ∧
        (createExpense caller input file false db).2.audit = db.audit) := by
  constructor
  · intro op db
    cases op with
    | opListExpenses c f => exact ⟨rfl, rfl⟩
    | opGetExpense c i => exact ⟨rfl, rfl⟩
    | opListUsers c => exact ⟨rfl, rfl⟩
    | opGetUser c i => exact ⟨rfl, rfl⟩
    | opListAudit c => exact ⟨rfl, rfl⟩
    | opCreateExpense c input file => exact createExpense_indep c input file db false
    | opUpdateExpense c i input file =>
      exact updateExpense_indep c i input file db false
    | opUpdateStatus c i s reason =>
      exact updateExpenseStatus_indep c i s reason db false
    | opExportExpenses c f => exact exportExpenses_indep c f db false
    | opLogin email pwd => exact login_indep email pwd db false
    | opLogout c => exact logout_indep c db false
    | opCreateUser c input => exact createUser_indep c input db false
    | opUpdateUser c i input => exact updateUser_indep c i input db false
    | opDeleteUser c i => exact deleteUser_indep c i db false
    | opExportAudit c => exact exportAudit_indep c db false
  · intro caller input file db hv
    unfold createExpense
    rw [if_pos hv]
    exact ⟨rfl, rfl, rfl⟩

/-- Witness for C6: the valid expense creation by the employee with a failing
audit write answers 500 while the new expense is stored and no audit entry
exists. -/
theorem audit_failure_preserves_mutation_witness :
    (createExpense empCtx sampleInput none false sampleDb).1 = 500 ∧
    (createExpense empCtx sampleInput none false sampleDb).2.expenses
      = sampleDb.expenses ++ [newExpenseOf empCtx sampleInput none sampleDb] ∧
    (createExpense empCtx sampleInput none false sampleDb).2.audit
      = sampleDb.audit :=
  audit_failure_preserves_mutation.2 empCtx sampleInput none sampleDb (by decide)

end ExpenseApp






